import Mathlib

/-!
Verification development for the vector-explorer repository.

The core under verification is `src/services/VectorDBLoader.ts` (database-type
detection and subprocess-based loading) together with `src/utils/csvExporter.ts`
and the `VectorData` types from `src/types.ts`.

Modelling conventions:
* Filesystem paths are lists of segments; the filesystem itself is a finite
  tree (`FsNode`).  Node's `fs` calls that can throw are modelled in `Except`;
  the TypeScript `try`/`catch` blocks become explicit `match`es on the
  `Except` value, exactly where the source has them.
* JavaScript strings are Lean `String`s; JavaScript numbers appearing in the
  JSON payloads are modelled as integers (`Int`), which covers every payload
  the claims mention.
* `JSON.parse` / `JSON.stringify` and the CSV serialisation library are
  external libraries (the spec lists them as out of scope); they are modelled
  by executable Lean functions with the standard JSON / RFC‑4180 semantics.
* The mutable field `_detectedPath` of class `VectorDBLoader` is threaded as
  explicit state (`Option (List String)`).
-/

/-! ## Filesystem model -/

/-- A node of the modelled filesystem.  `dirDenied` is a directory whose
listing cannot be read (e.g. `EACCES`): `statSync` sees a directory but
`readdirSync` throws.  `other` is a path that exists but is neither a regular
file nor a directory (e.g. a socket). -/
inductive FsNode where
  | file
  | other
  | dirDenied
  | dir (entries : List (String × FsNode))
deriving Repr

/-- Result of `fs.Dirent` as used by `readdirSync(..., { withFileTypes: true })`. -/
structure Dirent where
  name : String
  isFile : Bool
  isDirectory : Bool
deriving Repr, DecidableEq

def FsNode.isFileNode : FsNode → Bool
  | .file => true
  | _ => false

def FsNode.isDirNode : FsNode → Bool
  | .dir _ => true
  | .dirDenied => true
  | _ => false

/-- First entry with the given name (directory listings are association lists). -/
def lookupEntry (entries : List (String × FsNode)) (name : String) : Option FsNode :=
  match entries with
  | [] => none
  | (n, c) :: rest => if n = name then some c else lookupEntry rest name

/-- Resolve a path (list of segments) against a root node.  Traversal cannot
enter a `dirDenied` directory. -/
def findNode : FsNode → List String → Option FsNode
  | node, [] => some node
  | .dir entries, seg :: rest =>
      match lookupEntry entries seg with
      | some c => findNode c rest
      | none => none
  | _, _ :: _ => none

/-- Rendering of a model path as the absolute path string the source works with. -/
def renderPath (p : List String) : String :=
  "/" ++ String.intercalate "/" p

/-- Errors thrown by the modelled `fs` calls. -/
inductive FsError where
  | enoent (p : String)
  | eaccess (p : String)
  | enotdir (p : String)
deriving Repr, DecidableEq

structure Stat where
  isFile : Bool
  isDirectory : Bool
deriving Repr, DecidableEq

/-- Model of `fs.existsSync`. -/
def existsSync (root : FsNode) (p : List String) : Bool :=
  (findNode root p).isSome

/-- Model of `fs.statSync` (throws `ENOENT` on a missing path). -/
def statSync (root : FsNode) (p : List String) : Except FsError Stat :=
  match findNode root p with
  | none => .error (.enoent (renderPath p))
  | some .file => .ok ⟨true, false⟩
  | some .other => .ok ⟨false, false⟩
  | some .dirDenied => .ok ⟨false, true⟩
  | some (.dir _) => .ok ⟨false, true⟩

/-- Model of `fs.readdirSync(p, { withFileTypes: true })`. -/
def readdirSync (root : FsNode) (p : List String) : Except FsError (List Dirent) :=
  match findNode root p with
  | none => .error (.enoent (renderPath p))
  | some (.dir entries) =>
      .ok (entries.map fun e => ⟨e.1, e.2.isFileNode, e.2.isDirNode⟩)
  | some .dirDenied => .error (.eaccess (renderPath p))
  | some _ => .error (.enotdir (renderPath p))

/-- Model of `fs.readdirSync(p)` (names only). -/
def readdirNames (root : FsNode) (p : List String) : Except FsError (List String) :=
  (readdirSync root p).map (List.map Dirent.name)

/-! ## Database-type detection (`VectorDBLoader.detectDatabaseType` and the
two bounded-depth search helpers) -/

/-- `String.prototype.toLowerCase`, modelled character-wise. -/
def lowerName (s : String) : String :=
  String.mk (s.data.map Char.toLower)

/-- `String.prototype.endsWith`, modelled on the character lists. -/
def strEndsWith (s suffix : String) : Bool :=
  let a := s.data
  let b := suffix.data
  if b.length ≤ a.length then a.drop (a.length - b.length) == b else false

/-- `lowerName.endsWith('.faiss') || lowerName.endsWith('.index')` from the source. -/
def isFaissName (name : String) : Bool :=
  strEndsWith (lowerName name) ".faiss" || strEndsWith (lowerName name) ".index"

/-- The first `for` loop of `searchForFaissFiles`: first file entry of the
listing whose lower-cased name has a recognised extension. -/
def findFaissEntry : List Dirent → Option String
  | [] => none
  | e :: rest =>
      if e.isFile && isFaissName e.name then some e.name else findFaissEntry rest

/-- Condition of the second `for` loop of both search helpers:
`entry.isDirectory() && entry.name !== '.' && entry.name !== '..' && entry.name !== '.git'`. -/
def subdirOk (e : Dirent) : Bool :=
  e.isDirectory && e.name != "." && e.name != ".." && e.name != ".git"

/-- Recursive body of `searchForFaissFiles`, with the remaining depth budget
`maxDepth + 1 - currentDepth` as the (structural) recursion argument; budget
`0` is exactly the `currentDepth > maxDepth` guard of the source.  A
`readdirSync` failure is caught by the source's `try`/`catch` and yields
`null`. -/
def searchFaissGo (root : FsNode) (budget : Nat) (dirPath : List String) :
    Option (List String) :=
  match budget with
  | 0 => none
  | b + 1 =>
      match readdirSync root dirPath with
      | .error _ => none
      | .ok entries =>
          match findFaissEntry entries with
          | some n => some (dirPath ++ [n])
          | none =>
              entries.findSome? fun e =>
                if subdirOk e then searchFaissGo root b (dirPath ++ [e.name]) else none

/-- `VectorDBLoader.searchForFaissFiles(dirPath, currentDepth, maxDepth)`. -/
def searchForFaissFiles (root : FsNode) (dirPath : List String)
    (currentDepth maxDepth : Nat) : Option (List String) :=
  searchFaissGo root (maxDepth + 1 - currentDepth) dirPath

/-- The first `for` loop of `searchForChromaDB`: is there a file entry named
`chroma.sqlite3`? -/
def hasChromaEntry : List Dirent → Bool
  | [] => false
  | e :: rest => if e.isFile && e.name == "chroma.sqlite3" then true else hasChromaEntry rest

/-- Recursive body of `searchForChromaDB`, depth handled as in `searchFaissGo`. -/
def searchChromaGo (root : FsNode) (budget : Nat) (dirPath : List String) :
    Option (List String) :=
  match budget with
  | 0 => none
  | b + 1 =>
      match readdirSync root dirPath with
      | .error _ => none
      | .ok entries =>
          if hasChromaEntry entries then some dirPath
          else
            entries.findSome? fun e =>
              if subdirOk e then searchChromaGo root b (dirPath ++ [e.name]) else none

/-- `VectorDBLoader.searchForChromaDB(dirPath, currentDepth, maxDepth)`. -/
def searchForChromaDB (root : FsNode) (dirPath : List String)
    (currentDepth maxDepth : Nat) : Option (List String) :=
  searchChromaGo root (maxDepth + 1 - currentDepth) dirPath

inductive DbType where
  | faiss
  | chroma
deriving Repr, DecidableEq

/-- The `try` block of `detectDatabaseType`.  The second component of the
result is the `_detectedPath` field after the call (input `st` = its value
before the call; the source only ever assigns it here before returning a
type). -/
def detectCore (root : FsNode) (dbPath : List String) (st : Option (List String)) :
    Except FsError (Option DbType × Option (List String)) :=
  match statSync root dbPath with
  | .error e => .error e
  | .ok stat =>
      if stat.isFile then
        if isFaissName (renderPath dbPath) then .ok (some .faiss, some dbPath)
        else .ok (none, st)
      else if stat.isDirectory then
        if existsSync root (dbPath ++ ["chroma.sqlite3"]) then
          .ok (some .chroma, some dbPath)
        else if existsSync root (dbPath ++ ["index.faiss"]) then
          .ok (some .faiss, some (dbPath ++ ["index.faiss"]))
        else
          match searchForFaissFiles root dbPath 0 3 with
          | some found => .ok (some .faiss, some found)
          | none =>
              match searchForChromaDB root dbPath 0 3 with
              | some found => .ok (some .chroma, some found)
              | none => .ok (none, st)
      else .ok (none, st)

/-- `VectorDBLoader.detectDatabaseType`: the `try` body wrapped in the
`catch` that logs and returns `null`.  The `Except` result type records that
an exception could in principle escape; the catch guarantees it never does
(see `detect_never_throws`). -/
def detectDatabaseType (root : FsNode) (dbPath : List String)
    (st : Option (List String)) :
    Except FsError (Option DbType × Option (List String)) :=
  match detectCore root dbPath st with
  | .ok r => .ok r
  | .error _ => .ok (none, st)

/-! ## Search-order semantics of the bounded FAISS search

`faissCandGo` enumerates, in traversal order, every file the bounded search
examines: all files of a directory first, then — depth-first, in listing
order — the files of each admissible subdirectory.  The theorem for C1 shows
`searchFaissGo` returns exactly the first enumerated file with a recognised
extension. -/

/-- Candidate files `(containing directory, file name)` in traversal order. -/
def faissCandGo (root : FsNode) (budget : Nat) (dirPath : List String) :
    List (List String × String) :=
  match budget with
  | 0 => []
  | b + 1 =>
      match readdirSync root dirPath with
      | .error _ => []
      | .ok entries =>
          (entries.filterMap fun e => if e.isFile then some (dirPath, e.name) else none)
          ++ (entries.flatMap fun e =>
                if subdirOk e then faissCandGo root b (dirPath ++ [e.name]) else [])

/-- Predicate picked by the search among the candidates. -/
def isFaissCand (pr : List String × String) : Bool :=
  isFaissName pr.2

def fsDepth2 : FsNode :=
  .dir [("sub", .dir [("sub2", .dir [("vecs.faiss", .file)])])]

def fsDepth4 : FsNode :=
  .dir [("a", .dir [("b", .dir [("c", .dir [("d", .dir [("x.faiss", .file)])])])])]

def fsChromaBoth : FsNode :=
  .dir [("chroma.sqlite3", .file), ("index.faiss", .file)]

/-! ## JSON values (the result of `JSON.parse`) -/

/-- JSON values.  Numbers are modelled as integers (every payload in the
claims is integral). -/
inductive Json where
  | null
  | bool (b : Bool)
  | num (n : Int)
  | str (s : String)
  | arr (elems : List Json)
  | obj (fields : List (String × Json))
deriving Repr

/-- First field with the given key (JavaScript's `'k' in o` / `o.k` on parsed
objects; duplicate keys do not occur in the payloads considered). -/
def lookupField (fields : List (String × Json)) (k : String) : Option Json :=
  match fields with
  | [] => none
  | (n, v) :: rest => if n = k then some v else lookupField rest k

mutual

/-- JavaScript template-literal stringification of a value, used by the
source when building the adapter-error message (`String(v)`: strings
verbatim, numbers in decimal, arrays comma-joined, objects as
`[object Object]`). -/
def jsToString : Json → String
  | .null => "null"
  | .bool b => cond b "true" "false"
  | .num n => toString n
  | .str s => s
  | .arr xs => jsArrToString xs
  | .obj _ => "[object Object]"

def jsArrToString : List Json → String
  | [] => ""
  | [x] => jsToString x
  | x :: rest => jsToString x ++ "," ++ jsArrToString rest

end

/-! ## `JSON.parse`, modelled as an executable recursive-descent parser.

The model accepts the JSON grammar over integral numbers and the common
string escapes; like `JSON.parse` it rejects trailing non-whitespace.  (It is
a model of the platform library, which the spec places out of scope; the
repository's own code only consumes its result.) -/

def jsSkipWs : List Char → List Char
  | [] => []
  | c :: rest =>
      if c = ' ' || c = '\n' || c = '\t' || c = '\r' then jsSkipWs rest else c :: rest

/-- Body of a JSON string, after the opening quote. -/
def parseJString : List Char → Option (String × List Char)
  | [] => none
  | '"' :: rest => some ("", rest)
  | '\\' :: rest =>
      match rest with
      | 'n' :: r2 => (parseJString r2).map fun pr => (String.mk ('\n' :: pr.1.data), pr.2)
      | 't' :: r2 => (parseJString r2).map fun pr => (String.mk ('\t' :: pr.1.data), pr.2)
      | 'r' :: r2 => (parseJString r2).map fun pr => (String.mk ('\r' :: pr.1.data), pr.2)
      | '"' :: r2 => (parseJString r2).map fun pr => (String.mk ('"' :: pr.1.data), pr.2)
      | '\\' :: r2 => (parseJString r2).map fun pr => (String.mk ('\\' :: pr.1.data), pr.2)
      | '/' :: r2 => (parseJString r2).map fun pr => (String.mk ('/' :: pr.1.data), pr.2)
      | _ => none
  | c :: rest => (parseJString rest).map fun pr => (String.mk (c :: pr.1.data), pr.2)

def parseDigits : List Char → List Char × List Char
  | [] => ([], [])
  | c :: rest =>
      if c.isDigit then
        let (ds, r) := parseDigits rest
        (c :: ds, r)
      else ([], c :: rest)

def digitsToNatGo (acc : Nat) : List Char → Nat
  | [] => acc
  | c :: rest => digitsToNatGo (acc * 10 + (c.toNat - '0'.toNat)) rest

mutual

def parseJValue : Nat → List Char → Option (Json × List Char)
  | 0, _ => none
  | fuel + 1, cs =>
      match jsSkipWs cs with
      | [] => none
      | c :: rest =>
          if c = 'n' then
            match rest with
            | 'u' :: 'l' :: 'l' :: r => some (.null, r)
            | _ => none
          else if c = 't' then
            match rest with
            | 'r' :: 'u' :: 'e' :: r => some (.bool true, r)
            | _ => none
          else if c = 'f' then
            match rest with
            | 'a' :: 'l' :: 's' :: 'e' :: r => some (.bool false, r)
            | _ => none
          else if c = '"' then
            (parseJString rest).map fun pr => (.str pr.1, pr.2)
          else if c = '-' then
            match parseDigits rest with
            | ([], _) => none
            | (ds, r) => some (.num (-(digitsToNatGo 0 ds : Int)), r)
          else if c.isDigit then
            match parseDigits (c :: rest) with
            | (ds, r) => some (.num (digitsToNatGo 0 ds : Int), r)
          else if c = '[' then
            match jsSkipWs rest with
            | ']' :: r => some (.arr [], r)
            | _ => (parseJArrItems fuel rest).map fun pr => (.arr pr.1, pr.2)
          else if c = '\x7b' then
            match jsSkipWs rest with
            | '\x7d' :: r => some (.obj [], r)
            | _ => (parseJObjItems fuel rest).map fun pr => (.obj pr.1, pr.2)
          else none

def parseJArrItems : Nat → List Char → Option (List Json × List Char)
  | 0, _ => none
  | fuel + 1, cs =>
      (parseJValue fuel cs).bind fun pr =>
        match jsSkipWs pr.2 with
        | ',' :: r2 => (parseJArrItems fuel r2).map fun pr2 => (pr.1 :: pr2.1, pr2.2)
        | ']' :: r2 => some ([pr.1], r2)
        | _ => none

def parseJObjItems : Nat → List Char → Option (List (String × Json) × List Char)
  | 0, _ => none
  | fuel + 1, cs =>
      match jsSkipWs cs with
      | '"' :: r =>
          (parseJString r).bind fun kr =>
            match jsSkipWs kr.2 with
            | ':' :: r3 =>
                (parseJValue fuel r3).bind fun vr =>
                  match jsSkipWs vr.2 with
                  | ',' :: r5 => (parseJObjItems fuel r5).map fun pr => ((kr.1, vr.1) :: pr.1, pr.2)
                  | '\x7d' :: r5 => some ([(kr.1, vr.1)], r5)
                  | _ => none
            | _ => none
      | _ => none

end

/-- `JSON.parse`: parse one document, reject trailing garbage. -/
def parseJson (s : String) : Option Json :=
  match parseJValue (s.data.length + 1) s.data with
  | some (j, rest) => if jsSkipWs rest = [] then some j else none
  | none => none

/-! ## Process loader (`VectorDBLoader.loadWithPython`, `getPythonCommand`)

The host environment (extension path, configuration, platform, and the
behaviour of the spawned subprocess) is a parameter `Env`; `run` maps the
shell command string handed to `spawn(command, [], { shell: true })` to the
observed process outcome. -/

/-- Outcome of the spawned subprocess: either the `error` event (the process
could not be started), or the `close` event with an exit code and the
collected stdout/stderr streams. -/
inductive ProcResult where
  | startFailed (msg : String)
  | exited (code : Int) (stdout stderr : String)

structure Env where
  extensionPath : String
  adapterExists : DbType → Bool
  pythonPathConfig : Option String
  platform : String
  run : String → ProcResult

/-- The failure taxonomy of the loader; each constructor corresponds to one
`throw`/`reject` site of the source, carrying the message built there.
`uncaughtFs` models a filesystem exception escaping `loadVectorDB` (the
detailed-error branch stats and lists the path outside any `try`). -/
inductive LoadFailure where
  | pathNotFound (msg : String)
  | detectionFailed (msg : String)
  | adapterMissing (msg : String)
  | processSpawnFailed (msg : String)
  | processExitNonzero (msg : String)
  | outputParseFailed (msg : String)
  | adapterReported (msg : String)
  | uncaughtFs (e : FsError)

/-- `VectorDBLoader.getPythonCommand` (an empty configured string is falsy in
JavaScript and falls back to the platform default). -/
def getPythonCommand (env : Env) : String :=
  match env.pythonPathConfig with
  | some c =>
      if c = "" then (if env.platform = "win32" then "python" else "python3") else c
  | none => if env.platform = "win32" then "python" else "python3"

/-- `path.join(extensionPath, 'python', ...)`. -/
def adapterScriptPath (env : Env) (ty : DbType) : String :=
  env.extensionPath ++ "/python/"
    ++ (match ty with
        | .faiss => "faiss_adapter.py"
        | .chroma => "chroma_adapter.py")

/-- The source's quoting: `` `"${p}"` ``. -/
def quoteArg (s : String) : String :=
  "\"" ++ s ++ "\""

/-- `` `${pythonCommand} ${quotedScriptPath} ${quotedDbPath}` ``. -/
def buildCommand (env : Env) (ty : DbType) (dbPath : String) : String :=
  getPythonCommand env ++ " " ++ quoteArg (adapterScriptPath env ty) ++ " " ++ quoteArg dbPath

/-- `outputData.substring(0, 500)` plus the ellipsis marker. -/
def truncPreview (out : String) : String :=
  String.mk (out.data.take 500) ++ (if out.data.length > 500 then "..." else "")

/-- `VectorDBLoader.loadWithPython`.  Besides the result, the second
component is the list of commands passed to `spawn` (the spawn trace: one
command per spawned subprocess). -/
def loadWithPython (env : Env) (dbPath : String) (ty : DbType) :
    Except LoadFailure Json × List String :=
  if env.adapterExists ty then
    let command := buildCommand env ty dbPath
    match env.run command with
    | .startFailed msg =>
        (.error (.processSpawnFailed ("Failed to start Python process: " ++ msg
          ++ "\nCommand: " ++ getPythonCommand env
          ++ "\nMake sure Python is installed and in your PATH, or configure vectorExplorer.pythonPath in settings.")),
         [command])
    | .exited code out err =>
        if code != 0 then
          (.error (.processExitNonzero ("Python process exited with code " ++ toString code
            ++ "\nCommand: " ++ command
            ++ "\nError: " ++ (if err = "" then "No error output" else err)
            ++ "\nOutput: " ++ (if out = "" then "No output" else out))),
           [command])
        else
          match parseJson out with
          | none =>
              (.error (.outputParseFailed ("Failed to parse Python output"
                ++ "\nOutput: " ++ truncPreview out)), [command])
          | some (.obj fields) =>
              -- `'error' in vectorData` on a parsed object
              match lookupField fields "error" with
              | some v =>
                  (.error (.adapterReported ("Python adapter error: " ++ jsToString v)),
                   [command])
              | none => (.ok (.obj fields), [command])
          | some (.arr elems) =>
              -- `'error' in <array>` is `false`; the array is resolved as-is
              (.ok (.arr elems), [command])
          | some _ =>
              -- `'error' in <primitive>` throws a TypeError inside the same
              -- `try` as `JSON.parse`, so it surfaces as the parse failure
              (.error (.outputParseFailed ("Failed to parse Python output"
                ++ "\nOutput: " ++ truncPreview out)), [command])
  else
    (.error (.adapterMissing ("Python adapter not found: " ++ adapterScriptPath env ty)), [])

/-! ## `VectorDBLoader.loadVectorDB` -/

/-- `path.basename`, on the segment list. -/
def basenameOf (p : List String) : String :=
  (p.getLast?).getD ""

/-- `path.extname` on a basename: suffix from the last dot, empty when there
is no dot or the only dot is leading. -/
def extname (b : String) : String :=
  if b = "." || b = ".." then ""
  else
    let rev := b.data.reverse
    match rev.dropWhile (fun c => c != '.') with
    | [] => ""
    | _ :: before =>
        if before.isEmpty then ""
        else String.mk ('.' :: (rev.takeWhile (fun c => c != '.')).reverse)

def extnameOf (p : List String) : String :=
  extname (basenameOf p)

/-- `VectorDBLoader.loadVectorDB`.  Result components: the outcome, the
`_detectedPath` field after the call (input `st0` = its value before the
call), and the spawn trace. -/
def loadVectorDB (root : FsNode) (env : Env) (dbPath : List String)
    (st0 : Option (List String)) :
    Except LoadFailure Json × Option (List String) × List String :=
  if existsSync root dbPath then
    -- `this._detectedPath = null; // Reset` before detection
    match detectDatabaseType root dbPath none with
    | .error e => (.error (.uncaughtFs e), none, [])
    | .ok (none, st1) =>
        -- detailed detection-failure message (fs calls outside any `try`)
        match statSync root dbPath with
        | .error e => (.error (.uncaughtFs e), st1, [])
        | .ok stat =>
            if stat.isFile then
              (.error (.detectionFailed
                ("Unable to detect database type for file: " ++ basenameOf dbPath
                  ++ "\nFile extension: "
                  ++ (if extnameOf dbPath = "" then "none" else extnameOf dbPath)
                  ++ "\nExpected: .faiss or .index file"
                  ++ "\nPath: " ++ renderPath dbPath)), st1, [])
            else if stat.isDirectory then
              match readdirNames root dbPath with
              | .error e => (.error (.uncaughtFs e), st1, [])
              | .ok names =>
                  (.error (.detectionFailed
                    ("Unable to detect database type for directory: " ++ basenameOf dbPath
                      ++ "\nLooking for: chroma.sqlite3, index.faiss, or any .faiss/.index files in subdirectories"
                      ++ "\nDirectory contains: " ++ String.intercalate ", " (names.take 10)
                      ++ (if names.length > 10 then "..." else "")
                      ++ "\nPath: " ++ renderPath dbPath)), st1, [])
            else
              (.error (.detectionFailed
                ("Path is neither a file nor a directory: " ++ renderPath dbPath)), st1, [])
    | .ok (some ty, st1) =>
        -- `const actualPath = this._detectedPath || dbPath`
        let actualPath := match st1 with
          | some q => q
          | none => dbPath
        let r := loadWithPython env (renderPath actualPath) ty
        (r.1, st1, r.2)
  else
    (.error (.pathNotFound ("Path does not exist: " ++ renderPath dbPath)), st0, [])

/-! ## Claim theorems about the loader -/

/-- Environment whose subprocess behaviour is irrelevant to the statement. -/
def stubEnv : Env :=
  ⟨"/ext", fun _ => true, none, "linux", fun _ => .exited 0 "" ""⟩

def envErrJson : Env :=
  ⟨"/ext", fun _ => true, none, "linux",
   fun _ => .exited 0 "\x7b\"error\":\"no module named X\"\x7d" "warning: stuff"⟩

def isExitNonzeroErr : Except LoadFailure Json → Bool
  | .error (.processExitNonzero _) => true
  | _ => false

def isAdapterReportedErr : Except LoadFailure Json → Bool
  | .error (.adapterReported _) => true
  | _ => false

def envErrJsonExit2 : Env :=
  ⟨"/ext", fun _ => true, none, "linux",
   fun _ => .exited 2 "\x7b\"error\":\"no module named X\"\x7d" ""⟩

/-- POSIX-style shell tokenisation of a command string, as performed by the
`/bin/sh -c` wrapper that `spawn(..., { shell: true })` uses: whitespace
splits words outside double quotes, double quotes group characters, an
unterminated quote is a syntax error (`none`).  Arguments: remaining input,
inside-quotes flag, word-started flag, current word (reversed), finished
words (reversed). -/
def shellSplitGo : List Char → Bool → Bool → List Char → List String → Option (List String)
  | [], inQ, started, cur, acc =>
      if inQ then none
      else if started then some ((String.mk cur.reverse :: acc).reverse)
      else some acc.reverse
  | c :: rest, inQ, started, cur, acc =>
      if c = '"' then shellSplitGo rest (!inQ) true cur acc
      else if c = ' ' && !inQ then
        if started then shellSplitGo rest inQ false [] (String.mk cur.reverse :: acc)
        else shellSplitGo rest inQ false [] acc
      else shellSplitGo rest inQ true (c :: cur) acc

def shellSplit (s : String) : Option (List String) :=
  shellSplitGo s.data false false [] []

def envMismatch : Env :=
  ⟨"/ext", fun _ => true, none, "linux",
   fun _ => .exited 0
     "\x7b\"type\":\"faiss\",\"count\":2,\"dimension\":3,\"vectors\":[\x7b\"id\":\"a\",\"vector\":[1,2],\"text\":\"x\",\"source\":\"s\"\x7d]\x7d"
     ""⟩

/-! ## Typed vector data (`src/types.ts`) and CSV export (`src/utils/csvExporter.ts`)

`exportToCSV` shows a save dialog and writes the file; those presentation
effects are outside the core, so the model returns the CSV text that is
written.  The `csv-stringify` library (out of scope per the spec) is modelled
with its default RFC‑4180 behaviour: fields containing a delimiter, quote or
record delimiter are wrapped in double quotes with inner quotes doubled, one
`\n`-terminated record per row, header first. -/

structure VectorRecord where
  id : String
  vector : List Int
  text : String
  source : String
  metadata : Option Json

structure VectorData where
  type : DbType
  count : Int
  dimension : Int
  vectors : List VectorRecord

/-- `JSON.stringify` string escaping (the escapes relevant to the model). -/
def jsonEscapeChar (c : Char) : List Char :=
  if c = '"' then ['\\', '"']
  else if c = '\\' then ['\\', '\\']
  else if c = '\n' then ['\\', 'n']
  else if c = '\t' then ['\\', 't']
  else if c = '\r' then ['\\', 'r']
  else [c]

def jsonQuote (s : String) : String :=
  String.mk ('"' :: (s.data.flatMap jsonEscapeChar ++ ['"']))

mutual

/-- `JSON.stringify` (compact form, integral numbers). -/
def jsonStringify : Json → String
  | .null => "null"
  | .bool b => cond b "true" "false"
  | .num n => toString n
  | .str s => jsonQuote s
  | .arr xs => "[" ++ jsonStringifyArr xs ++ "]"
  | .obj fs => "\x7b" ++ jsonStringifyObj fs ++ "\x7d"

def jsonStringifyArr : List Json → String
  | [] => ""
  | [x] => jsonStringify x
  | x :: rest => jsonStringify x ++ "," ++ jsonStringifyArr rest

def jsonStringifyObj : List (String × Json) → String
  | [] => ""
  | [(k, v)] => jsonQuote k ++ ":" ++ jsonStringify v
  | (k, v) :: rest => jsonQuote k ++ ":" ++ jsonStringify v ++ "," ++ jsonStringifyObj rest

end

/-- `JSON.stringify(vector.vector)` for a numeric array. -/
def stringifyNumArray (xs : List Int) : String :=
  "[" ++ String.intercalate "," (xs.map toString) ++ "]"

/-- One row of the `csvData` mapping of `exportToCSV`, in the configured
column order `id, text, source, vector, dimension, metadata`. -/
def csvRow (v : VectorRecord) : List String :=
  [v.id, v.text, v.source, stringifyNumArray v.vector,
   toString v.vector.length, jsonStringify (v.metadata.getD (.obj []))]

def csvHeader : List String :=
  ["id", "text", "source", "vector", "dimension", "metadata"]

/-- Characters that force a CSV field to be quoted. -/
def csvSpecialChar (c : Char) : Bool :=
  c = ',' || c = '"' || c = '\n' || c = '\r'

/-- Double every quote inside a quoted field. -/
def csvEscape : List Char → List Char
  | [] => []
  | c :: rest => if c = '"' then '"' :: '"' :: csvEscape rest else c :: csvEscape rest

/-- Encode one field, quoting only when needed (csv-stringify default). -/
def csvField (s : List Char) : List Char :=
  if s.any csvSpecialChar then '"' :: (csvEscape s ++ ['"']) else s

def joinComma : List (List Char) → List Char
  | [] => []
  | [f] => f
  | f :: rest => f ++ ',' :: joinComma rest

def csvRowLine (fields : List (List Char)) : List Char :=
  joinComma (fields.map csvField) ++ ['\n']

def csvLines : List (List (List Char)) → List Char
  | [] => []
  | r :: rest => csvRowLine r ++ csvLines rest

/-- `exportToCSV`: the CSV text written for a `VectorData` (header row, then
one record per vector, in order). -/
def exportToCSV (data : VectorData) : String :=
  String.mk (csvLines ((csvHeader :: data.vectors.map csvRow).map (List.map String.data)))

/-! ### A CSV reader, to state the round-trip claim -/

/-- Parse the body of a quoted field (after the opening quote); a doubled
quote is a literal quote, a single quote ends the field. -/
def csvParseQuoted : List Char → Option (List Char × List Char)
  | [] => none
  | c :: rest =>
      if c = '"' then
        match rest with
        | c2 :: rest2 =>
            if c2 = '"' then (csvParseQuoted rest2).map fun pr => ('"' :: pr.1, pr.2)
            else some ([], rest)
        | [] => some ([], [])
      else (csvParseQuoted rest).map fun pr => (c :: pr.1, pr.2)

/-- Consume an unquoted field: everything up to a `,` or newline. -/
def csvTakeUnquoted : List Char → List Char × List Char
  | [] => ([], [])
  | c :: rest =>
      if c = ',' || c = '\n' then ([], c :: rest)
      else
        let pr := csvTakeUnquoted rest
        (c :: pr.1, pr.2)

def csvParseField : List Char → Option (List Char × List Char)
  | [] => some ([], [])
  | c :: rest =>
      if c = '"' then csvParseQuoted rest else some (csvTakeUnquoted (c :: rest))

/-- Parse one record of exactly `n` fields, consuming the final newline. -/
def csvParseRow : Nat → List Char → Option (List (List Char) × List Char)
  | 0, _ => none
  | 1, cs =>
      (csvParseField cs).bind fun pr =>
        match pr.2 with
        | c :: rest2 => if c = '\n' then some ([pr.1], rest2) else none
        | [] => none
  | n + 2, cs =>
      (csvParseField cs).bind fun pr =>
        match pr.2 with
        | c :: rest2 =>
            if c = ',' then (csvParseRow (n + 1) rest2).map fun pr2 => (pr.1 :: pr2.1, pr2.2)
            else none
        | [] => none

/-- Parse all records (6 columns each); `fuel` bounds the number of records. -/
def csvParseRows : Nat → List Char → Option (List (List (List Char)))
  | _, [] => some []
  | 0, _ :: _ => none
  | fuel + 1, c :: cs =>
      (csvParseRow 6 (c :: cs)).bind fun pr =>
        (csvParseRows fuel pr.2).map fun rs => pr.1 :: rs

/-- Re-read the `text`, `source` and `vector` columns of every data row of a
CSV document. -/
def readCsvTriples (s : String) : Option (List (String × String × String)) :=
  match csvParseRows s.data.length s.data with
  | some (_hdr :: rows) =>
      some (rows.map fun r =>
        (String.mk ((r.get? 1).getD []), String.mk ((r.get? 2).getD []),
         String.mk ((r.get? 3).getD [])))
  | _ => none

/-! ## Theorems -/

/-- The file-scanning loop returns the first matching file of the listing. -/
theorem findFaissEntry_eq_find (dirPath : List String) (entries : List Dirent) :
    ((entries.filterMap fun e => if e.isFile then some (dirPath, e.name) else none).find?
        isFaissCand)
      = (findFaissEntry entries).map fun n => (dirPath, n) := by
  induction entries with
  | nil => simp [findFaissEntry]
  | cons e rest ih =>
      by_cases hf : e.isFile
      · rw [List.filterMap_cons]
        simp only [hf, if_pos]
        rw [List.find?_cons]
        by_cases hn : isFaissName e.name
        · simp [findFaissEntry, isFaissCand, hf, hn]
        · simp [findFaissEntry, isFaissCand, hf, hn, ih]
      · rw [List.filterMap_cons]
        simp only [hf]
        simp only [Bool.false_eq_true, if_false]
        simp [findFaissEntry, hf, ih]

/-- The subdirectory loop returns the first match among the concatenated
child enumerations, assuming the equivalence at the smaller budget. -/
theorem searchFaissSub_eq_first_cand (root : FsNode) (b : Nat) (dirPath : List String)
    (ih : ∀ q, searchFaissGo root b q
        = ((faissCandGo root b q).find? isFaissCand).map fun pr => pr.1 ++ [pr.2]) :
    ∀ entries : List Dirent,
      (entries.findSome? fun e =>
          if subdirOk e then searchFaissGo root b (dirPath ++ [e.name]) else none)
        = ((entries.flatMap fun e =>
              if subdirOk e then faissCandGo root b (dirPath ++ [e.name]) else []).find?
            isFaissCand).map fun pr => pr.1 ++ [pr.2] := by
  intro entries
  induction entries with
  | nil => simp
  | cons e rest ihe =>
      rw [List.findSome?_cons, List.flatMap_cons, List.find?_append]
      by_cases hok : subdirOk e = true
      · rw [if_pos hok, if_pos hok, ih (dirPath ++ [e.name])]
        cases hc : (faissCandGo root b (dirPath ++ [e.name])).find? isFaissCand with
        | some pr => simp
        | none =>
            simp only [Option.map_none, Option.none_or]
            exact ihe
      · rw [if_neg hok, if_neg hok]
        simp only [List.find?_nil, Option.none_or]
        exact ihe

/-- The bounded search equals “first match in the files-first depth-first
enumeration”. -/
theorem searchFaissGo_eq_first_cand (root : FsNode) :
    ∀ (budget : Nat) (dirPath : List String),
      searchFaissGo root budget dirPath
        = ((faissCandGo root budget dirPath).find? isFaissCand).map
            fun pr => pr.1 ++ [pr.2] := by
  intro budget
  induction budget with
  | zero => intro dirPath; simp [searchFaissGo, faissCandGo]
  | succ b ih =>
      intro dirPath
      rw [searchFaissGo, faissCandGo]
      cases hrd : readdirSync root dirPath with
      | error e => simp
      | ok entries =>
          simp only
          rw [List.find?_append, findFaissEntry_eq_find dirPath entries]
          cases hfe : findFaissEntry entries with
          | some n => simp
          | none =>
              simp only [Option.map_none, Option.none_orElse]
              exact searchFaissSub_eq_first_cand root b dirPath ih entries

/-- Looking up one more segment steps through the directory's listing. -/
theorem findNode_snoc (root : FsNode) (p : List String) (n : String) :
    findNode root (p ++ [n])
      = match findNode root p with
        | some (.dir es) => lookupEntry es n
        | _ => none := by
  induction p generalizing root with
  | nil =>
      cases root with
      | dir es =>
          simp only [List.nil_append, findNode]
          cases lookupEntry es n with
          | some c => rfl
          | none => rfl
      | file => rfl
      | other => rfl
      | dirDenied => rfl
  | cons seg rest ih =>
      cases root with
      | dir es =>
          simp only [List.cons_append, findNode]
          cases lookupEntry es seg with
          | some c => exact ih c
          | none => rfl
      | file => rfl
      | other => rfl
      | dirDenied => rfl

/-! ## Claim theorems about detection -/

/-- C1: for a directory input with no direct match (no `chroma.sqlite3` and no
`index.faiss` entry), detection runs the bounded recursive search
(`searchForFaissFiles` at `currentDepth = 0`, `maxDepth = 3`, i.e. depth
budget `4`) and classifies FAISS with resolved path equal to the first file
whose lower-cased name ends in `.faiss` or `.index` in the files-first,
listing-order, depth-first enumeration `faissCandGo`; when that enumeration
has no match (and the subsequent Chroma search also fails) detection fails. -/
theorem detect_faiss_bounded_search_first_match
    (root : FsNode) (p : List String) (st : Option (List String))
    (entries : List (String × FsNode))
    (hdir : findNode root p = some (.dir entries))
    (hchroma : lookupEntry entries "chroma.sqlite3" = none)
    (hindex : lookupEntry entries "index.faiss" = none) :
    (∀ d n, (faissCandGo root 4 p).find? isFaissCand = some (d, n) →
        detectDatabaseType root p st = .ok (some .faiss, some (d ++ [n])))
    ∧ ((faissCandGo root 4 p).find? isFaissCand = none →
        searchForChromaDB root p 0 3 = none →
        detectDatabaseType root p st = .ok (none, st)) := by
  have hstat : statSync root p = .ok ⟨false, true⟩ := by
    simp [statSync, hdir]
  have hex1 : existsSync root (p ++ ["chroma.sqlite3"]) = false := by
    simp [existsSync, findNode_snoc, hdir, hchroma]
  have hex2 : existsSync root (p ++ ["index.faiss"]) = false := by
    simp [existsSync, findNode_snoc, hdir, hindex]
  have hsearch : searchForFaissFiles root p 0 3
      = ((faissCandGo root 4 p).find? isFaissCand).map fun pr => pr.1 ++ [pr.2] := by
    rw [searchForFaissFiles]
    exact searchFaissGo_eq_first_cand root (3 + 1 - 0) p
  constructor
  · intro d n hfind
    simp [detectDatabaseType, detectCore, hstat, hex1, hex2, hsearch, hfind]
  · intro hfind hchr
    simp [detectDatabaseType, detectCore, hstat, hex1, hex2, hsearch, hfind, hchr]

theorem detect_faiss_bounded_search_first_match_witness :
    detectDatabaseType fsDepth2 [] none
        = .ok (some .faiss, some ["sub", "sub2", "vecs.faiss"])
    ∧ detectDatabaseType fsDepth4 [] none = .ok (none, none) := by
  constructor
  · exact (detect_faiss_bounded_search_first_match fsDepth2 [] none _ rfl rfl rfl).1
      ["sub", "sub2"] "vecs.faiss" (by decide)
  · exact (detect_faiss_bounded_search_first_match fsDepth4 [] none _ rfl rfl rfl).2
      (by decide) (by decide)

/-- C4: detection is a total function.  The catch in `detectDatabaseType`
turns every filesystem exception of the `try` body (`detectCore`) into a
"no match" result: the returned `Except` is always `ok`.  The second
conjunct shows the guarantee is not vacuous: there are inputs on which the
`try` body does throw. -/
theorem detect_never_throws :
    (∀ root p st, ∃ r, detectDatabaseType root p st = .ok r)
    ∧ (∃ root p st err, detectCore root p st = .error err
        ∧ detectDatabaseType root p st = .ok (none, st)) := by
  constructor
  · intro root p st
    unfold detectDatabaseType
    cases detectCore root p st with
    | ok r => exact ⟨r, rfl⟩
    | error e => exact ⟨(none, st), rfl⟩
  · exact ⟨.file, ["x"], none, .enoent "/x", rfl, rfl⟩

/-- C6: a directory that directly contains an entry named `chroma.sqlite3`
is classified as Chroma with resolved path equal to the directory itself,
regardless of any FAISS evidence (the sentinel check precedes every FAISS
check). -/
theorem detect_chroma_sentinel_precedence
    (root : FsNode) (p : List String) (st : Option (List String))
    (entries : List (String × FsNode)) (c : FsNode)
    (hdir : findNode root p = some (.dir entries))
    (hchroma : lookupEntry entries "chroma.sqlite3" = some c) :
    detectDatabaseType root p st = .ok (some .chroma, some p) := by
  have hstat : statSync root p = .ok ⟨false, true⟩ := by
    simp [statSync, hdir]
  have hex : existsSync root (p ++ ["chroma.sqlite3"]) = true := by
    simp [existsSync, findNode_snoc, hdir, hchroma]
  simp [detectDatabaseType, detectCore, hstat, hex]

theorem detect_chroma_sentinel_precedence_witness :
    detectDatabaseType fsChromaBoth [] none = .ok (some .chroma, some []) :=
  detect_chroma_sentinel_precedence fsChromaBoth [] none _ .file rfl rfl

/-- C5: for a path that does not exist, `loadVectorDB` fails with the
path-not-found error (whose message states the input path), the stored state
is untouched and the spawn trace is empty — no subprocess is started,
whatever the environment's subprocess behaviour. -/
theorem load_missing_path_no_spawn (root : FsNode) (env : Env) (p : List String)
    (st : Option (List String)) (h : findNode root p = none) :
    loadVectorDB root env p st
      = (.error (.pathNotFound ("Path does not exist: " ++ renderPath p)), st, []) := by
  have he : existsSync root p = false := by simp [existsSync, h]
  simp [loadVectorDB, he]

theorem load_missing_path_no_spawn_witness :
    loadVectorDB (.dir []) stubEnv ["missing"] none
      = (.error (.pathNotFound "Path does not exist: /missing"), none, []) := by
  have h := load_missing_path_no_spawn (.dir []) stubEnv ["missing"] none rfl
  exact h.trans (by rfl)

/-- C10: the observable behaviour of `loadVectorDB` — its outcome and the
commands it hands to `spawn` (hence the resolved path given to the adapter)
— does not depend on the `_detectedPath` value left over from earlier calls:
the field is reset to `null` before detection runs. -/
theorem load_result_independent_of_prior_state (root : FsNode) (env : Env)
    (p : List String) (st1 st2 : Option (List String)) :
    (loadVectorDB root env p st1).1 = (loadVectorDB root env p st2).1
    ∧ (loadVectorDB root env p st1).2.2 = (loadVectorDB root env p st2).2.2 := by
  cases h : existsSync root p <;> simp [loadVectorDB, h]

/-- C2 (amended): for an adapter run that exits `0` and whose standard
output parses as a JSON object with an `error` field, the loader fails with
the adapter-reported error carrying that field's value in its message.
(For a nonzero exit code the exit-code error takes precedence; see the
counterexample.) -/
theorem adapter_error_zero_exit_reported (env : Env) (p : String) (ty : DbType)
    (out err : String) (fields : List (String × Json)) (v : Json)
    (hex : env.adapterExists ty = true)
    (hrun : env.run (buildCommand env ty p) = .exited 0 out err)
    (hparse : parseJson out = some (.obj fields))
    (herr : lookupField fields "error" = some v) :
    (loadWithPython env p ty).1
      = .error (.adapterReported ("Python adapter error: " ++ jsToString v)) := by
  simp [loadWithPython, hex, hrun, hparse, herr]

theorem adapter_error_zero_exit_reported_witness :
    (loadWithPython envErrJson "/db" .faiss).1
      = .error (.adapterReported "Python adapter error: no module named X") := by
  have h := adapter_error_zero_exit_reported envErrJson "/db" .faiss
    "\x7b\"error\":\"no module named X\"\x7d" "warning: stuff"
    [("error", .str "no module named X")] (.str "no module named X")
    rfl rfl (by rfl) rfl
  exact h.trans (by rfl)

/-- C2 counterexample: an adapter that exits `2` while printing
`{"error":"no module named X"}` (a payload that does parse as JSON with an
`error` field) makes the loader fail with the process-exit-nonzero error,
not with the adapter-reported error — the exit code is checked first, so the
claim's "regardless of the process exit code" is false. -/
theorem adapter_error_nonzero_exit_counterexample :
    parseJson "\x7b\"error\":\"no module named X\"\x7d"
        = some (.obj [("error", .str "no module named X")])
    ∧ isAdapterReportedErr (loadWithPython envErrJsonExit2 "/db" .faiss).1 = false
    ∧ isExitNonzeroErr (loadWithPython envErrJsonExit2 "/db" .faiss).1 = true :=
  ⟨by rfl, by rfl, by rfl⟩

/-- C3: the command string hands the resolved path to the shell wrapped in
plain double quotes.  Under the modelled shell tokenisation this passes a
path containing spaces through unaltered as one argument, but a path
containing a double-quote character breaks the quoting (here: unterminated
quoting, no token list at all), so the adapter does not receive such a path
unaltered — the code does not satisfy the claim for quote characters. -/
theorem quoting_fails_on_quote_character :
    shellSplit (buildCommand stubEnv .faiss "/data/my db.faiss")
        = some ["python3", "/ext/python/faiss_adapter.py", "/data/my db.faiss"]
    ∧ shellSplit (buildCommand stubEnv .faiss "/data/my\"db.faiss") = none :=
  ⟨by rfl, by rfl⟩

/-- C7: when the subprocess exits `0`, the loader's behaviour is a function
of the standard-output bytes alone — the parse target never mixes in
standard error, so runs differing only in their stderr stream produce
identical results. -/
theorem exit_zero_result_ignores_stderr (env : Env) (p : String) (ty : DbType)
    (out err1 err2 : String) :
    loadWithPython { env with run := fun _ => .exited 0 out err1 } p ty
      = loadWithPython { env with run := fun _ => .exited 0 out err2 } p ty := by
  cases hex : env.adapterExists ty <;>
    simp [loadWithPython, hex, buildCommand, adapterScriptPath, getPythonCommand, quoteArg]

/-- C8: an adapter run that exits `0` and prints valid JSON (an object
without an `error` field) makes the loader return the parsed structure
verbatim — no field of the payload is validated. -/
theorem exit_zero_valid_json_returned_verbatim (env : Env) (p : String) (ty : DbType)
    (out err : String) (fields : List (String × Json))
    (hex : env.adapterExists ty = true)
    (hrun : env.run (buildCommand env ty p) = .exited 0 out err)
    (hparse : parseJson out = some (.obj fields))
    (herr : lookupField fields "error" = none) :
    (loadWithPython env p ty).1 = .ok (.obj fields) := by
  simp [loadWithPython, hex, hrun, hparse, herr]

theorem exit_zero_valid_json_returned_verbatim_witness :
    (loadWithPython envMismatch "/db" .faiss).1
      = .ok (.obj [("type", .str "faiss"), ("count", .num 2), ("dimension", .num 3),
          ("vectors", .arr [.obj [("id", .str "a"), ("vector", .arr [.num 1, .num 2]),
            ("text", .str "x"), ("source", .str "s")]])]) :=
  exit_zero_valid_json_returned_verbatim envMismatch "/db" .faiss
    "\x7b\"type\":\"faiss\",\"count\":2,\"dimension\":3,\"vectors\":[\x7b\"id\":\"a\",\"vector\":[1,2],\"text\":\"x\",\"source\":\"s\"\x7d]\x7d"
    ""
    [("type", .str "faiss"), ("count", .num 2), ("dimension", .num 3),
     ("vectors", .arr [.obj [("id", .str "a"), ("vector", .arr [.num 1, .num 2]),
       ("text", .str "x"), ("source", .str "s")]])]
    rfl rfl (by rfl) rfl

/-! ### Round-trip lemmas -/

theorem strMk_data (s : String) : String.mk s.data = s := rfl

theorem csvParseQuoted_escape (f rest : List Char) (h : rest.head? ≠ some '"') :
    csvParseQuoted (csvEscape f ++ '"' :: rest) = some (f, rest) := by
  induction f with
  | nil =>
      cases rest with
      | nil => rfl
      | cons c2 r2 =>
          have hc2 : c2 ≠ '"' := by
            intro hh
            exact h (by simp [hh])
          simp [csvEscape, csvParseQuoted, hc2]
  | cons c f' ih =>
      by_cases hc : c = '"'
      · subst hc
        simp only [csvEscape, if_pos rfl, List.cons_append]
        rw [csvParseQuoted.eq_def]
        simp [ih]
      · simp only [csvEscape, if_neg hc, List.cons_append]
        rw [csvParseQuoted.eq_def]
        simp [hc, ih]

theorem csvTakeUnquoted_append (f rest : List Char)
    (hf : ∀ c ∈ f, csvSpecialChar c = false)
    (hrest : rest = [] ∨ rest.head? = some ',' ∨ rest.head? = some '\n') :
    csvTakeUnquoted (f ++ rest) = (f, rest) := by
  induction f with
  | nil =>
      rcases hrest with h | h | h
      · subst h; rfl
      · cases rest with
        | nil => rfl
        | cons c r =>
            have : c = ',' := by simpa using h
            subst this
            simp [csvTakeUnquoted]
      · cases rest with
        | nil => rfl
        | cons c r =>
            have : c = '\n' := by simpa using h
            subst this
            simp [csvTakeUnquoted]
  | cons c f' ih =>
      have hc := hf c (List.mem_cons_self c f')
      have hc1 : c ≠ ',' := by
        intro hh; subst hh; simp [csvSpecialChar] at hc
      have hc2 : c ≠ '\n' := by
        intro hh; subst hh; simp [csvSpecialChar] at hc
      have ih' := ih (fun x hx => hf x (List.mem_cons_of_mem _ hx))
      simp [csvTakeUnquoted, hc1, hc2, ih']

theorem csvParseField_encode (f rest : List Char)
    (hrest : rest = [] ∨ rest.head? = some ',' ∨ rest.head? = some '\n') :
    csvParseField (csvField f ++ rest) = some (f, rest) := by
  by_cases hq : f.any csvSpecialChar
  · have hh : rest.head? ≠ some '"' := by
      rcases hrest with h | h | h
      · subst h; simp
      · rw [h]; simp
      · rw [h]; simp
    rw [csvField, if_pos hq]
    have hshape : ('"' :: (csvEscape f ++ ['"'])) ++ rest
        = '"' :: (csvEscape f ++ '"' :: rest) := by simp
    rw [hshape]
    simp [csvParseField, csvParseQuoted_escape f rest hh]
  · rw [csvField, if_neg hq]
    have hq2 : f.any csvSpecialChar = false := by
      cases h : f.any csvSpecialChar
      · rfl
      · exact absurd h hq
    have hf : ∀ c ∈ f, csvSpecialChar c = false := by
      intro c hc
      have hcc := List.any_eq_false.mp hq2 c hc
      simpa using hcc
    cases f with
    | nil =>
        rcases hrest with h | h | h
        · subst h; rfl
        · cases rest with
          | nil => rfl
          | cons c r =>
              have hcc : c = ',' := by simpa using h
              subst hcc
              simp [csvParseField, csvTakeUnquoted]
        · cases rest with
          | nil => rfl
          | cons c r =>
              have hcc : c = '\n' := by simpa using h
              subst hcc
              simp [csvParseField, csvTakeUnquoted]
    | cons c f' =>
        have hcq : c ≠ '"' := by
          have hcs := hf c (List.mem_cons_self c f')
          intro hh; subst hh; simp [csvSpecialChar] at hcs
        have htu := csvTakeUnquoted_append (c :: f') rest hf hrest
        rw [List.cons_append] at htu
        rw [csvParseField.eq_def]
        simp [hcq, htu]

theorem csvParseRow_encode (f : List Char) (fields' : List (List Char)) (rest : List Char) :
    csvParseRow (f :: fields').length (joinComma ((f :: fields').map csvField) ++ '\n' :: rest)
      = some (f :: fields', rest) := by
  induction fields' generalizing f rest with
  | nil =>
      simp only [List.map_cons, List.map_nil, joinComma, List.length_cons, List.length_nil]
      simp only [Nat.zero_add, csvParseRow]
      rw [csvParseField_encode f ('\n' :: rest) (by simp)]
      simp
  | cons g fs ih =>
      simp only [List.map_cons, List.length_cons]
      have hjoin : joinComma (csvField f :: csvField g :: fs.map csvField)
          = csvField f ++ ',' :: joinComma (csvField g :: fs.map csvField) := by
        rfl
      rw [hjoin]
      have hlen : fs.length + 1 + 1 = fs.length + 2 := rfl
      rw [hlen]
      simp only [csvParseRow]
      have hshape : (csvField f ++ ',' :: joinComma (csvField g :: fs.map csvField)) ++ '\n' :: rest
          = csvField f ++ ',' :: (joinComma (csvField g :: fs.map csvField) ++ '\n' :: rest) := by
        simp
      rw [hshape]
      rw [csvParseField_encode f (',' :: (joinComma (csvField g :: fs.map csvField) ++ '\n' :: rest)) (by simp)]
      simp only [Option.some_bind, if_pos rfl]
      have := ih g rest
      simp only [List.map_cons, List.length_cons] at this
      rw [this]
      rfl

theorem csvRowLine_length_pos (fields : List (List Char)) :
    0 < (csvRowLine fields).length := by
  simp [csvRowLine]

theorem csvParseRows_encode (rows : List (List (List Char))) :
    ∀ fuel, (∀ r ∈ rows, r.length = 6) → (csvLines rows).length ≤ fuel →
      csvParseRows fuel (csvLines rows) = some rows := by
  induction rows with
  | nil =>
      intro fuel _ _
      cases fuel <;> rfl
  | cons r rest ih =>
      intro fuel hlen hfuel
      have hr : r.length = 6 := hlen r (List.mem_cons_self r rest)
      have hform : csvLines (r :: rest)
          = joinComma (r.map csvField) ++ '\n' :: csvLines rest := by
        simp [csvLines, csvRowLine]
      have hpos : 0 < (csvLines (r :: rest)).length := by
        rw [hform]; simp
      obtain ⟨fu, rfl⟩ : ∃ fu, fuel = fu + 1 := by
        cases fuel with
        | zero => omega
        | succ fu => exact ⟨fu, rfl⟩
      obtain ⟨c, cs, hc⟩ : ∃ c cs, csvLines (r :: rest) = c :: cs := by
        cases h : csvLines (r :: rest) with
        | nil => rw [h] at hpos; simp at hpos
        | cons c cs => exact ⟨c, cs, rfl⟩
      rw [hc, csvParseRows, ← hc, hform]
      cases r with
      | nil => simp at hr
      | cons f fs =>
          have hrow := csvParseRow_encode f fs (csvLines rest)
          rw [show (f :: fs).length = 6 from hr] at hrow
          rw [hrow]
          have hfu : (csvLines rest).length ≤ fu := by
            have h1 : 0 < (csvRowLine (f :: fs)).length := csvRowLine_length_pos _
            have h2 : (csvLines ((f :: fs) :: rest)).length
                = (csvRowLine (f :: fs)).length + (csvLines rest).length := by
              simp [csvLines]
            omega
          simp only [Option.some_bind]
          rw [ih fu (fun q hq => hlen q (List.mem_cons_of_mem _ hq)) hfu]
          rfl

/-- C9: exporting a `VectorData` to CSV and re-reading the `text`, `source`
and `vector` columns of every data row reproduces the original fields of the
corresponding record — the vector modulo its stringified encoding — with one
CSV row per record, in order. -/
theorem csv_export_roundtrip (data : VectorData) :
    readCsvTriples (exportToCSV data)
      = some (data.vectors.map fun v => (v.text, v.source, stringifyNumArray v.vector)) := by
  unfold readCsvTriples exportToCSV
  have hlen : ∀ r ∈ (csvHeader :: data.vectors.map csvRow).map (List.map String.data),
      r.length = 6 := by
    intro r hr
    rcases List.mem_map.mp hr with ⟨q, hq, rfl⟩
    rcases List.mem_cons.mp hq with h | h
    · subst h; simp [csvHeader]
    · rcases List.mem_map.mp h with ⟨v, _, rfl⟩
      simp [csvRow]
  have hparse := csvParseRows_encode
    ((csvHeader :: data.vectors.map csvRow).map (List.map String.data))
    (csvLines ((csvHeader :: data.vectors.map csvRow).map (List.map String.data))).length
    hlen (le_refl _)
  rw [hparse]
  simp [List.map_cons, List.map_map, csvRow, strMk_data, Function.comp]
